import Mathlib

/-!
Shallow embedding of the enhanced track-search algorithm of
`src/utils/config.ts` (`performEnhancedSearch` and its constant tables),
together with theorems settling the specification claims about it.

Machine strings are embedded as Lean `String`; JavaScript string methods
are translated operation by operation over the underlying character
lists (`toLowerCase` as a character-wise case fold, `trim` as dropping
whitespace at both ends, `includes` as contiguous containment,
`split(/\s+/).filter(t => t.length > 0)` as a whitespace split followed
by the same filter, the year regex as an explicit first-match scan with
word boundaries).  JavaScript truthiness tests are translated by the
value class they test: `!searchQuery` is true exactly for the empty
string, `!tracks.length` exactly for the empty array, `limit ?` is false
exactly for an absent or zero limit.  `Array.prototype.sort`, stable
with a consistent comparator since ES2019, is embedded as
`List.insertionSort` (also stable, and a stable sort's output is
determined by the comparator) over the comparator's non-strict order.
-/

/-- Track record (`ITrack`).  Every field the search touches is optional
in the source, which reads them with optional chaining and `|| ''`
fallbacks. -/
structure ITrack where
  name : Option String := none
  title : Option String := none
  original_title : Option String := none
  artist : Option String := none
  album : Option String := none
  overview : Option String := none
  genre : Option String := none
  year : Option Int := none
  popularity : Option Int := none
deriving DecidableEq, Repr

/-- Genre aliases table `GENRE_ALIASES`, in source (insertion) order, which
`Object.entries` preserves. -/
def GENRE_ALIASES : List (String × List String) :=
  [("pop", ["pop", "alternative pop", "dance pop", "synthpop"]),
   ("rock", ["rock", "pop rock", "alternative rock", "classic rock"]),
   ("hip hop", ["hip hop", "hip-hop", "rap", "latin trap"]),
   ("r&b", ["r&b", "rnb", "soul"]),
   ("electronic", ["electronic", "dance", "edm", "synthpop"]),
   ("country", ["country"]),
   ("indie", ["indie", "indie folk", "indie rock"]),
   ("folk", ["folk", "indie folk"]),
   ("punk", ["punk", "pop punk"]),
   ("garage", ["garage", "uk garage"]),
   ("k-pop", ["k-pop", "kpop"]),
   ("latin", ["latin", "latin trap"])]

/-- Scoring weight table shape (`SCORING_WEIGHTS` in the source). -/
structure ScoringWeights where
  EXACT_MATCH_NAME : Nat
  EXACT_MATCH_ARTIST : Nat
  EXACT_MATCH_ALBUM : Nat
  EXACT_MATCH_GENRE : Nat
  YEAR_MATCH : Nat
  GENRE_ALIAS_MATCH : Nat
  PARTIAL_NAME : Nat
  PARTIAL_ORIGINAL_TITLE : Nat
  PARTIAL_ARTIST : Nat
  PARTIAL_GENRE : Nat
  PARTIAL_ALBUM : Nat
  PARTIAL_YEAR : Nat
  PARTIAL_WORD_BONUS : Nat
  PARTIAL_OVERVIEW : Nat
  POPULARITY_HIGH : Nat
  POPULARITY_VERY_HIGH : Nat
deriving DecidableEq, Repr

/-- Scoring weight values, as in the source. -/
def SCORING_WEIGHTS : ScoringWeights where
  EXACT_MATCH_NAME := 100
  EXACT_MATCH_ARTIST := 90
  EXACT_MATCH_ALBUM := 80
  EXACT_MATCH_GENRE := 70
  YEAR_MATCH := 85
  GENRE_ALIAS_MATCH := 75
  PARTIAL_NAME := 50
  PARTIAL_ORIGINAL_TITLE := 45
  PARTIAL_ARTIST := 40
  PARTIAL_GENRE := 35
  PARTIAL_ALBUM := 30
  PARTIAL_YEAR := 25
  PARTIAL_WORD_BONUS := 20
  PARTIAL_OVERVIEW := 15
  POPULARITY_HIGH := 10
  POPULARITY_VERY_HIGH := 5

/-- Search result tuple (`SearchResult`). -/
structure SearchResult where
  track : ITrack
  score : Nat
  isExactMatch : Bool
deriving DecidableEq, Repr

/-- Needle is a leading run of the haystack. -/
def charsLead : List Char → List Char → Bool
  | [], _ => true
  | _ :: _, [] => false
  | a :: as, b :: bs => a == b && charsLead as bs

/-- Needle occurs contiguously somewhere in the haystack. -/
def charsContain (needle : List Char) : List Char → Bool
  | [] => charsLead needle []
  | c :: rest => charsLead needle (c :: rest) || charsContain needle rest

/-- JavaScript `s.includes(t)`: `t` occurs as a contiguous substring of
`s` (true when `t` is empty). -/
def strIncludes (s t : String) : Bool :=
  charsContain t.data s.data

/-- Word character of the JavaScript regex `\b` boundary: `[A-Za-z0-9_]`. -/
def isWordChar (c : Char) : Bool :=
  c.isAlphanum || c == '_'

/-- Word boundary holds before a digit position when there is no previous
character or the previous character is not a word character. -/
def boundaryBefore : Option Char → Bool
  | none => true
  | some p => !isWordChar p

/-- Word boundary holds after the four digits when the string ends there
or the next character is not a word character. -/
def boundaryAfter : List Char → Bool
  | [] => true
  | c :: _ => !isWordChar c

/-- Numeric value of a decimal digit character. -/
def digitVal (c : Char) : Nat := c.toNat - 48

/-- Scan for the first match of the regex `\b(19|20)\d{2}\b`, position by
position from the left, carrying the previous character for the leading
boundary test; on a match, return `parseInt` of the four matched digits. -/
def findYearAux : Option Char → List Char → Option Int
  | prev, c1 :: c2 :: c3 :: c4 :: rest =>
    if boundaryBefore prev &&
        ((c1 == '1' && c2 == '9') || (c1 == '2' && c2 == '0')) &&
        c3.isDigit && c4.isDigit && boundaryAfter rest then
      some ((digitVal c1 * 1000 + digitVal c2 * 100 + digitVal c3 * 10 + digitVal c4 : Nat) : Int)
    else
      findYearAux (some c1) (c2 :: c3 :: c4 :: rest)
  | _, _ => none

/-- Source line `query.match(/\b(19|20)\d{2}\b/)` followed by
`parseInt(yearMatch[0])`: the `searchYear`, when the query contains a
year token. -/
def findYear (query : String) : Option Int :=
  findYearAux none query.data

/-- JavaScript `s.toLowerCase()`, character by character (ASCII case
fold, which covers every string these claims involve). -/
def jsToLower (s : String) : String :=
  ⟨s.data.map Char.toLower⟩

/-- JavaScript `s.trim()`: remove leading and trailing whitespace. -/
def jsTrim (s : String) : String :=
  ⟨((s.data.dropWhile Char.isWhitespace).reverse.dropWhile Char.isWhitespace).reverse⟩

/-- Source line `searchQuery.toLowerCase().trim()`. -/
def normalizeQuery (searchQuery : String) : String :=
  jsTrim (jsToLower searchQuery)

/-- Split on single whitespace characters, keeping empty segments (the
subsequent length filter removes them, exactly as it removes the empty
segments JavaScript `split(/\s+/)` yields at a leading separator). -/
def splitWsAux (acc : List Char) : List Char → List String
  | [] => [⟨acc.reverse⟩]
  | c :: rest =>
    if c.isWhitespace then ⟨acc.reverse⟩ :: splitWsAux [] rest
    else splitWsAux (c :: acc) rest

/-- Source line `query.split(/\s+/).filter(term => term.length > 0)`. -/
def searchTermsOf (query : String) : List String :=
  (splitWsAux [] query.data).filter fun term => term.length > 0

/-- Lower-case an optional field, absent treated as the empty string
(source pattern `track.field?.toLowerCase() || ''`). -/
def optLower (s : Option String) : String :=
  jsToLower (s.getD "")

/-- Per-track lower-cased text fields (the source's `trackText` object),
with `year` stringified (`track.year?.toString() || ''`). -/
structure TrackText where
  name : String
  title : String
  original_title : String
  artist : String
  album : String
  overview : String
  genre : String
  year : String
deriving DecidableEq, Repr

/-- Build the `trackText` object for a track. -/
def mkTrackText (t : ITrack) : TrackText where
  name := optLower t.name
  title := optLower t.title
  original_title := optLower t.original_title
  artist := optLower t.artist
  album := optLower t.album
  overview := optLower t.overview
  genre := optLower t.genre
  year :=
    match t.year with
    | some y => toString y
    | none => ""

/-- EXACT MATCH DETECTION block: the if/else-if cascade over
name-or-title-or-original-title, artist, album, genre; returns the score
contribution and the `isExactMatch` flag. -/
def exactScore (tt : TrackText) (query : String) : Nat × Bool :=
  if tt.name == query || tt.title == query || tt.original_title == query then
    (SCORING_WEIGHTS.EXACT_MATCH_NAME, true)
  else if tt.artist == query then
    (SCORING_WEIGHTS.EXACT_MATCH_ARTIST, true)
  else if tt.album == query then
    (SCORING_WEIGHTS.EXACT_MATCH_ALBUM, true)
  else if tt.genre == query then
    (SCORING_WEIGHTS.EXACT_MATCH_GENRE, true)
  else
    (0, false)

/-- YEAR-BASED SEARCH block: `if (searchYear && track.year === searchYear)`
(`searchYear` is never the falsy 0, since a match always yields a year of
1900 or more). -/
def yearScore (searchYear : Option Int) (t : ITrack) : Nat :=
  match searchYear, t.year with
  | some sy, some y => if y == sy then SCORING_WEIGHTS.YEAR_MATCH else 0
  | _, _ => 0

/-- GENRE-BASED SEARCH block: walk the alias table entries in order; on
the first entry whose key occurs in the query and one of whose aliases
occurs in the track's genre, add the weight and break. -/
def genreAliasScoreAux (query genre : String) : List (String × List String) → Nat
  | [] => 0
  | (searchGenre, aliases) :: rest =>
    if strIncludes query searchGenre && aliases.any (fun a => strIncludes genre a) then
      SCORING_WEIGHTS.GENRE_ALIAS_MATCH
    else
      genreAliasScoreAux query genre rest

/-- Genre alias contribution against the full table. -/
def genreAliasScore (query genre : String) : Nat :=
  genreAliasScoreAux query genre GENRE_ALIASES

/-- MULTI-TERM SEARCH SCORING block: per-term field containment weights,
in source field order. -/
def partialTermScore (tt : TrackText) (term : String) : Nat :=
  (if strIncludes tt.name term || strIncludes tt.title term then SCORING_WEIGHTS.PARTIAL_NAME else 0) +
  (if strIncludes tt.original_title term then SCORING_WEIGHTS.PARTIAL_ORIGINAL_TITLE else 0) +
  (if strIncludes tt.artist term then SCORING_WEIGHTS.PARTIAL_ARTIST else 0) +
  (if strIncludes tt.album term then SCORING_WEIGHTS.PARTIAL_ALBUM else 0) +
  (if strIncludes tt.genre term then SCORING_WEIGHTS.PARTIAL_GENRE else 0) +
  (if strIncludes tt.overview term then SCORING_WEIGHTS.PARTIAL_OVERVIEW else 0) +
  (if strIncludes tt.year term then SCORING_WEIGHTS.PARTIAL_YEAR else 0)

/-- PARTIAL WORD MATCHING BONUS block: terms of length at least 3 found
in name or artist. -/
def wordBonusScore (tt : TrackText) (term : String) : Nat :=
  if term.length >= 3 && (strIncludes tt.name term || strIncludes tt.artist term) then
    SCORING_WEIGHTS.PARTIAL_WORD_BONUS
  else 0

/-- POPULARITY BOOST block: `track.popularity && track.popularity > 85`
and the analogous `> 90` test (the truthiness conjunct only excludes a
popularity of 0, which fails both comparisons anyway). -/
def popularityScore (t : ITrack) : Nat :=
  (match t.popularity with
   | some p => if p > 85 then SCORING_WEIGHTS.POPULARITY_HIGH else 0
   | none => 0) +
  (match t.popularity with
   | some p => if p > 90 then SCORING_WEIGHTS.POPULARITY_VERY_HIGH else 0
   | none => 0)

/-- The body of the per-track `forEach`: accumulate exact, year and genre
contributions, then, only when the track is not an exact match, the
multi-term, word-bonus and popularity contributions; return the final
score and the flag. -/
def scoreTrack (query : String) (searchTerms : List String) (searchYear : Option Int)
    (track : ITrack) : Nat × Bool :=
  let tt := mkTrackText track
  let e := exactScore tt query
  let base := e.1 + yearScore searchYear track + genreAliasScore query tt.genre
  if e.2 then
    (base, true)
  else
    (base + (searchTerms.map (partialTermScore tt)).sum
          + (searchTerms.map (wordBonusScore tt)).sum
          + popularityScore track,
     false)

/-- The `scoredResults` array: one entry per track whose score is
strictly positive, in input order. -/
def scoredResultsOf (tracks : List ITrack) (query : String) : List SearchResult :=
  tracks.filterMap fun track =>
    let r := scoreTrack query (searchTermsOf query) (findYear query) track
    if r.1 > 0 then some ⟨track, r.1, r.2⟩ else none

/-- The sort comparator as a non-strict order: `resultLE a b` holds
exactly when the source comparator returns a non-positive number on
`(a, b)` (exact matches first, then score descending). -/
def resultLE (a b : SearchResult) : Bool :=
  if a.isExactMatch && !b.isExactMatch then true
  else if !a.isExactMatch && b.isExactMatch then false
  else decide (b.score ≤ a.score)

/-- The comparator order as a proposition. -/
def resultRel (a b : SearchResult) : Prop :=
  resultLE a b = true

instance : DecidableRel resultRel := fun a b =>
  inferInstanceAs (Decidable (resultLE a b = true))

/-- The `sortedResults` array: stable sort of the scored results under
the comparator (`Array.prototype.sort` with a consistent comparator is
stable, and a stable sort's output is unique; `insertionSort` is
stable). -/
def sortedResultsOf (tracks : List ITrack) (query : String) : List SearchResult :=
  (scoredResultsOf tracks query).insertionSort resultRel

/-- JavaScript `arr.slice(0, stop)`: a non-negative `stop` takes that
many leading elements, a negative `stop` counts from the end of the
array. -/
def jsSliceZero (l : List SearchResult) (stop : Int) : List SearchResult :=
  if 0 ≤ stop then l.take stop.toNat
  else l.take (l.length - stop.natAbs)

/-- Source line `return limit ? sortedResults.slice(0, limit) :
sortedResults;` — an absent limit and the falsy limit 0 both leave the
results untruncated. -/
def applyLimit (res : List SearchResult) : Option Int → List SearchResult
  | none => res
  | some l => if l = 0 then res else jsSliceZero res l

/-- The function `performEnhancedSearch(tracks, searchQuery, limit)`:
guard `if (!searchQuery || !tracks.length) return [];` (the falsy string
is exactly the empty string), then normalize the query, score every
track, keep positive scores, sort, and apply the limit. -/
def performEnhancedSearch (tracks : List ITrack) (searchQuery : String)
    (limit : Option Int) : List SearchResult :=
  if searchQuery = "" ∨ tracks = [] then []
  else applyLimit (sortedResultsOf tracks (normalizeQuery searchQuery)) limit

/-! ### Concrete tracks used by witnesses and counterexamples -/

/-- Track with every optional field absent. -/
def emptyTrack : ITrack := {}

/-- Track named "a". -/
def trackA : ITrack := { name := some "a" }

/-- Track named "ab". -/
def trackAB : ITrack := { name := some "ab" }

/-- Scenario A track. -/
def blindingLightsTrack : ITrack :=
  { name := some "Blinding Lights", artist := some "The Weeknd" }

/-- Scenario B first track. -/
def trackX2024 : ITrack := { name := some "X", year := some 2024 }

/-- Scenario B second track. -/
def trackY2023 : ITrack := { name := some "Y", year := some 2023 }

/-- Scenario C track. -/
def hipHopTrack : ITrack := { genre := some "hip-hop" }

/-- Track with a high popularity value. -/
def popularTrack : ITrack := { name := some "a", popularity := some 95 }

/-! ### Helper lemmas about the embedding -/

/-- The comparator order is transitive. -/
theorem resultRel_trans (a b c : SearchResult) (hab : resultRel a b) (hbc : resultRel b c) :
    resultRel a c := by
  unfold resultRel resultLE at *
  cases ha : a.isExactMatch <;> cases hb : b.isExactMatch <;> cases hc : c.isExactMatch <;>
    simp_all <;> omega

/-- The comparator order is total. -/
theorem resultRel_total (a b : SearchResult) : resultRel a b ∨ resultRel b a := by
  unfold resultRel resultLE
  cases ha : a.isExactMatch <;> cases hb : b.isExactMatch <;> simp_all <;> omega

instance : IsTrans SearchResult resultRel := ⟨resultRel_trans⟩

instance : IsTotal SearchResult resultRel := ⟨resultRel_total⟩

/-- Whatever the limit, the returned list is a `take` of the sorted
results. -/
theorem applyLimit_eq_take (res : List SearchResult) (lim : Option Int) :
    ∃ n, applyLimit res lim = res.take n := by
  cases lim with
  | none => exact ⟨res.length, (List.take_length res).symm⟩
  | some l =>
    by_cases h0 : l = 0
    · exact ⟨res.length, by simp [applyLimit, h0, List.take_length]⟩
    · by_cases hpos : (0 : Int) ≤ l
      · exact ⟨l.toNat, by simp [applyLimit, jsSliceZero, h0, hpos]⟩
      · exact ⟨res.length - l.natAbs, by simp [applyLimit, jsSliceZero, h0, hpos]⟩

/-- Members of the scored list are tracks of the input carrying their
computed score and flag, and only positive scores enter. -/
theorem mem_scoredResultsOf {tracks : List ITrack} {query : String} {r : SearchResult}
    (hr : r ∈ scoredResultsOf tracks query) :
    ∃ t ∈ tracks,
      r = ⟨t, (scoreTrack query (searchTermsOf query) (findYear query) t).1,
              (scoreTrack query (searchTermsOf query) (findYear query) t).2⟩ ∧
      0 < (scoreTrack query (searchTermsOf query) (findYear query) t).1 := by
  unfold scoredResultsOf at hr
  rw [List.mem_filterMap] at hr
  obtain ⟨t, ht, hf⟩ := hr
  refine ⟨t, ht, ?_⟩
  by_cases h : (scoreTrack query (searchTermsOf query) (findYear query) t).1 > 0
  · simp only [h, if_pos, Option.some.injEq] at hf
    exact ⟨hf.symm, h⟩
  · simp [h] at hf

/-- Members of the search output are members of the scored list for the
normalized query. -/
theorem mem_performEnhancedSearch {tracks : List ITrack} {q : String} {lim : Option Int}
    {r : SearchResult} (hr : r ∈ performEnhancedSearch tracks q lim) :
    r ∈ scoredResultsOf tracks (normalizeQuery q) := by
  unfold performEnhancedSearch at hr
  split at hr
  · simp at hr
  · obtain ⟨n, hn⟩ := applyLimit_eq_take (sortedResultsOf tracks (normalizeQuery q)) lim
    rw [hn] at hr
    have hmem := List.mem_of_mem_take hr
    unfold sortedResultsOf at hmem
    exact (List.mem_insertionSort resultRel).1 hmem

/-- The output flag is the exact-match flag of the detection cascade. -/
theorem scoreTrack_snd (q : String) (terms : List String) (sy : Option Int) (t : ITrack) :
    (scoreTrack q terms sy t).2 = (exactScore (mkTrackText t) q).2 := by
  unfold scoreTrack
  cases h : (exactScore (mkTrackText t) q).2 <;> simp [h]

/-- An exact match's score is the exact weight plus the year and genre
contributions only. -/
theorem scoreTrack_fst_of_exact (q : String) (terms : List String) (sy : Option Int)
    (t : ITrack) (h : (exactScore (mkTrackText t) q).2 = true) :
    (scoreTrack q terms sy t).1 =
      (exactScore (mkTrackText t) q).1 + yearScore sy t +
        genreAliasScore q (mkTrackText t).genre := by
  unfold scoreTrack
  simp [h]

/-- A non-exact match's score additionally accumulates the multi-term,
word-bonus and popularity contributions. -/
theorem scoreTrack_fst_of_not_exact (q : String) (terms : List String) (sy : Option Int)
    (t : ITrack) (h : (exactScore (mkTrackText t) q).2 = false) :
    (scoreTrack q terms sy t).1 =
      (exactScore (mkTrackText t) q).1 + yearScore sy t +
        genreAliasScore q (mkTrackText t).genre +
        (terms.map (partialTermScore (mkTrackText t))).sum +
        (terms.map (wordBonusScore (mkTrackText t))).sum +
        popularityScore t := by
  unfold scoreTrack
  simp [h]

/-- The cascade's flag holds exactly when the normalized query equals one
of the six lower-cased fields. -/
theorem exactScore_snd_iff (tt : TrackText) (q : String) :
    ((exactScore tt q).2 = true) ↔
      (tt.name = q ∨ tt.title = q ∨ tt.original_title = q ∨ tt.artist = q ∨
        tt.album = q ∨ tt.genre = q) := by
  by_cases h1 : tt.name = q <;> by_cases h2 : tt.title = q <;>
    by_cases h3 : tt.original_title = q <;> by_cases h4 : tt.artist = q <;>
    by_cases h5 : tt.album = q <;> by_cases h6 : tt.genre = q <;>
    simp [exactScore, h1, h2, h3, h4, h5, h6]

/-- The cascade's score contribution follows the strict priority order,
first success wins. -/
theorem exactScore_fst_eq (tt : TrackText) (q : String) :
    (exactScore tt q).1 =
      (if tt.name = q ∨ tt.title = q ∨ tt.original_title = q then
        SCORING_WEIGHTS.EXACT_MATCH_NAME
      else if tt.artist = q then SCORING_WEIGHTS.EXACT_MATCH_ARTIST
      else if tt.album = q then SCORING_WEIGHTS.EXACT_MATCH_ALBUM
      else if tt.genre = q then SCORING_WEIGHTS.EXACT_MATCH_GENRE
      else 0) := by
  by_cases h1 : tt.name = q <;> by_cases h2 : tt.title = q <;>
    by_cases h3 : tt.original_title = q <;> by_cases h4 : tt.artist = q <;>
    by_cases h5 : tt.album = q <;> by_cases h6 : tt.genre = q <;>
    simp [exactScore, h1, h2, h3, h4, h5, h6]

/-- Walking the alias table yields the single weight exactly when some
entry's key occurs in the query and one of its aliases occurs in the
genre field. -/
theorem genreAliasScoreAux_eq (q g : String) :
    ∀ table : List (String × List String),
      genreAliasScoreAux q g table =
        if ∃ e ∈ table, strIncludes q e.1 = true ∧ ∃ a ∈ e.2, strIncludes g a = true then
          SCORING_WEIGHTS.GENRE_ALIAS_MATCH
        else 0
  | [] => by simp [genreAliasScoreAux]
  | (key, aliases) :: rest => by
    rw [genreAliasScoreAux]
    by_cases h : (strIncludes q key && aliases.any fun a => strIncludes g a) = true
    · rw [if_pos h]
      rw [Bool.and_eq_true, List.any_eq_true] at h
      rw [if_pos ⟨(key, aliases), List.mem_cons_self _ _, h.1, h.2⟩]
    · rw [if_neg h, genreAliasScoreAux_eq q g rest]
      rw [Bool.and_eq_true, List.any_eq_true] at h
      congr 1
      rw [eq_iff_iff]
      constructor
      · rintro ⟨e, he, h1, h2⟩
        exact ⟨e, List.mem_cons_of_mem _ he, h1, h2⟩
      · rintro ⟨e, he, h1, h2⟩
        rcases List.mem_cons.1 he with rfl | he'
        · exact absurd ⟨h1, h2⟩ h
        · exact ⟨e, he', h1, h2⟩

/-- The year bonus never exceeds, and is contained in, every track's
final score. -/
theorem yearScore_le_scoreTrack (q : String) (terms : List String) (sy : Option Int)
    (t : ITrack) : yearScore sy t ≤ (scoreTrack q terms sy t).1 := by
  unfold scoreTrack
  cases h : (exactScore (mkTrackText t) q).2 <;> (simp [h]; try omega)

/-- The genre-alias bonus is contained in every track's final score,
exact or not. -/
theorem genreAliasScore_le_scoreTrack (q : String) (terms : List String) (sy : Option Int)
    (t : ITrack) :
    genreAliasScore q (mkTrackText t).genre ≤ (scoreTrack q terms sy t).1 := by
  unfold scoreTrack
  cases h : (exactScore (mkTrackText t) q).2 <;> (simp [h]; try omega)

/-! ### Claim theorems -/

/-- C1 (counterexample): the claim fails for whitespace-only queries.
The guard `!searchQuery` only rejects the empty string; a single-space
query passes it, normalizes to the empty string, and the all-absent
track's empty name field then compares equal to it, producing a
non-empty result. -/
theorem C1_whitespace_counterexample :
    performEnhancedSearch [emptyTrack] " " none ≠ [] := by decide

/-- C1 (amended): for every track list and the empty query string (the
only falsy string, hence the only query the guard rejects), the result
is the empty sequence. -/
theorem C1_empty_query_returns_nothing (tracks : List ITrack) (lim : Option Int) :
    performEnhancedSearch tracks "" lim = [] := by
  simp [performEnhancedSearch]

/-- C1 witness: the amended statement at a concrete input. -/
theorem C1_empty_query_returns_nothing_witness :
    performEnhancedSearch [trackA] "" none = [] :=
  C1_empty_query_returns_nothing [trackA] none

/-- C2 (counterexample): with `limit = 0` the claimed truncation law
`length = min(limit, unlimited length)` fails: `limit` is falsy, so the
source returns the full result instead of an empty one. -/
theorem C2_limit_zero_counterexample :
    ¬ ((performEnhancedSearch [trackA] "a" (some 0)).length =
        min (Int.toNat 0) (performEnhancedSearch [trackA] "a" none).length) := by decide

/-- C2 (amended): for every positive limit the output is the length-limit
prefix of the unlimited output, so its length is `min(limit, unlimited
length)`; a limit of 0, being falsy, is treated as absent and leaves the
result untruncated. -/
theorem C2_truncation_law (tracks : List ITrack) (q : String) (l : Int) :
    (0 < l →
      performEnhancedSearch tracks q (some l) =
        (performEnhancedSearch tracks q none).take l.toNat ∧
      (performEnhancedSearch tracks q (some l)).length =
        min l.toNat (performEnhancedSearch tracks q none).length) ∧
    (l = 0 →
      performEnhancedSearch tracks q (some l) = performEnhancedSearch tracks q none) := by
  constructor
  · intro hl
    have hmain : performEnhancedSearch tracks q (some l) =
        (performEnhancedSearch tracks q none).take l.toNat := by
      unfold performEnhancedSearch
      split
      · simp
      · simp only [applyLimit]
        rw [if_neg (by omega : ¬ l = 0)]
        unfold jsSliceZero
        rw [if_pos (by omega : (0 : Int) ≤ l)]
    exact ⟨hmain, by rw [hmain, List.length_take]⟩
  · intro hl
    subst hl
    unfold performEnhancedSearch
    split
    · rfl
    · simp [applyLimit]

/-- C2 witness at concrete inputs: two matching tracks with limit 1, and
the untruncated limit-0 case. -/
theorem C2_truncation_law_witness :
    (performEnhancedSearch [trackA, trackAB] "a" (some 1) =
       (performEnhancedSearch [trackA, trackAB] "a" none).take (1 : Int).toNat ∧
     (performEnhancedSearch [trackA, trackAB] "a" (some 1)).length =
       min (1 : Int).toNat (performEnhancedSearch [trackA, trackAB] "a" none).length) ∧
    performEnhancedSearch [trackA, trackAB] "a" (some 0) =
      performEnhancedSearch [trackA, trackAB] "a" none :=
  ⟨(C2_truncation_law [trackA, trackAB] "a" 1).1 (by decide),
   (C2_truncation_law [trackA, trackAB] "a" 0).2 rfl⟩

/-- C3: in every output, exact matches precede non-exact matches
regardless of score, and within a block of equal flags scores are
non-increasing; ties beyond these two keys are unconstrained. -/
theorem C3_output_order (tracks : List ITrack) (q : String) (lim : Option Int) :
    (performEnhancedSearch tracks q lim).Pairwise fun a b =>
      (b.isExactMatch = true → a.isExactMatch = true) ∧
      (a.isExactMatch = b.isExactMatch → b.score ≤ a.score) := by
  unfold performEnhancedSearch
  split
  · exact List.Pairwise.nil
  · obtain ⟨n, hn⟩ := applyLimit_eq_take (sortedResultsOf tracks (normalizeQuery q)) lim
    rw [hn]
    apply List.Pairwise.sublist (List.take_sublist _ _)
    unfold sortedResultsOf
    apply List.Pairwise.imp ?_ (List.sorted_insertionSort resultRel _)
    intro a b hab
    have h : resultLE a b = true := hab
    unfold resultLE at h
    cases ha : a.isExactMatch <;> cases hb : b.isExactMatch <;>
      simp [ha, hb] at h ⊢ <;> omega

/-- C3 witness: the order property at a concrete two-result search. -/
theorem C3_output_order_witness :
    (performEnhancedSearch [trackA, trackAB] "a" none).Pairwise fun a b =>
      (b.isExactMatch = true → a.isExactMatch = true) ∧
      (a.isExactMatch = b.isExactMatch → b.score ≤ a.score) :=
  C3_output_order [trackA, trackAB] "a" none

/-- C4: every returned tuple has a strictly positive score; a track
whose accumulated score is 0 is filtered out before sorting. -/
theorem C4_scores_positive (tracks : List ITrack) (q : String) (lim : Option Int)
    (r : SearchResult) (hr : r ∈ performEnhancedSearch tracks q lim) : 0 < r.score := by
  obtain ⟨t, ht, hrt, hpos⟩ := mem_scoredResultsOf (mem_performEnhancedSearch hr)
  rw [hrt]
  exact hpos

/-- C4 witness at a concrete input. -/
theorem C4_scores_positive_witness :
    0 < (SearchResult.mk trackA 100 true).score :=
  C4_scores_positive [trackA] "a" none ⟨trackA, 100, true⟩ (by decide)

/-- C5: in every output tuple the flag holds exactly when the normalized
query equals one of the six lower-cased fields; the cascade runs in
priority order name/title/original-title, artist, album, genre, the
first success contributing exactly its weight; Scenario A: the track
named "Blinding Lights" under that query in any letter case yields the
single exact match with the exact-name weight as its score. -/
theorem C5_exact_match_detection :
    (∀ (tracks : List ITrack) (q : String) (lim : Option Int) (r : SearchResult),
      r ∈ performEnhancedSearch tracks q lim →
      (r.isExactMatch = true ↔
        ((mkTrackText r.track).name = normalizeQuery q ∨
         (mkTrackText r.track).title = normalizeQuery q ∨
         (mkTrackText r.track).original_title = normalizeQuery q ∨
         (mkTrackText r.track).artist = normalizeQuery q ∨
         (mkTrackText r.track).album = normalizeQuery q ∨
         (mkTrackText r.track).genre = normalizeQuery q))) ∧
    (∀ (tt : TrackText) (nq : String),
      (exactScore tt nq).1 =
        (if tt.name = nq ∨ tt.title = nq ∨ tt.original_title = nq then
          SCORING_WEIGHTS.EXACT_MATCH_NAME
        else if tt.artist = nq then SCORING_WEIGHTS.EXACT_MATCH_ARTIST
        else if tt.album = nq then SCORING_WEIGHTS.EXACT_MATCH_ALBUM
        else if tt.genre = nq then SCORING_WEIGHTS.EXACT_MATCH_GENRE
        else 0)) ∧
    (∀ q : String, normalizeQuery q = "blinding lights" →
      performEnhancedSearch [blindingLightsTrack] q none =
        [⟨blindingLightsTrack, SCORING_WEIGHTS.EXACT_MATCH_NAME, true⟩]) := by
  refine ⟨?_, exactScore_fst_eq, ?_⟩
  · intro tracks q lim r hr
    obtain ⟨t, ht, hrt, hpos⟩ := mem_scoredResultsOf (mem_performEnhancedSearch hr)
    rw [hrt]
    simp only [scoreTrack_snd]
    exact exactScore_snd_iff (mkTrackText t) (normalizeQuery q)
  · intro q hq
    have hne : ¬ (q = "" ∨ [blindingLightsTrack] = ([] : List ITrack)) := by
      rintro (h | h)
      · rw [h] at hq
        exact absurd hq (by decide)
      · simp at h
    unfold performEnhancedSearch
    rw [if_neg hne, hq]
    decide

/-- C5 witness: Scenario A at an upper-case concrete query. -/
theorem C5_exact_match_detection_witness :
    performEnhancedSearch [blindingLightsTrack] "BLINDING Lights" none =
      [⟨blindingLightsTrack, SCORING_WEIGHTS.EXACT_MATCH_NAME, true⟩] :=
  C5_exact_match_detection.2.2 "BLINDING Lights" (by decide)

/-- C6: an exact match's final score is exactly the exact weight plus the
year and genre-alias contributions — the multi-term scoring, word bonus
and popularity boosts contribute nothing; a non-exact match accumulates
them all, with the popularity boost adding the high weight above 85 and
stacking the very-high weight above 90. -/
theorem C6_exact_skips_partial_scoring (q : String) (terms : List String)
    (sy : Option Int) (t : ITrack) :
    ((scoreTrack q terms sy t).2 = true →
      (scoreTrack q terms sy t).1 =
        (exactScore (mkTrackText t) q).1 + yearScore sy t +
          genreAliasScore q (mkTrackText t).genre) ∧
    ((scoreTrack q terms sy t).2 = false →
      (scoreTrack q terms sy t).1 =
        (exactScore (mkTrackText t) q).1 + yearScore sy t +
          genreAliasScore q (mkTrackText t).genre +
          (terms.map (partialTermScore (mkTrackText t))).sum +
          (terms.map (wordBonusScore (mkTrackText t))).sum +
          popularityScore t) ∧
    (∀ p : Int, t.popularity = some p →
      popularityScore t =
        (if 85 < p then SCORING_WEIGHTS.POPULARITY_HIGH else 0) +
        (if 90 < p then SCORING_WEIGHTS.POPULARITY_VERY_HIGH else 0)) := by
  refine ⟨?_, ?_, ?_⟩
  · intro h
    rw [scoreTrack_snd] at h
    exact scoreTrack_fst_of_exact q terms sy t h
  · intro h
    rw [scoreTrack_snd] at h
    exact scoreTrack_fst_of_not_exact q terms sy t h
  · intro p hp
    simp [popularityScore, hp]

/-- C6 witness: the exact branch at the track named "a", and the
popularity characterization at popularity 95. -/
theorem C6_exact_skips_partial_scoring_witness :
    (scoreTrack "a" ["a"] none trackA).1 =
      (exactScore (mkTrackText trackA) "a").1 + yearScore none trackA +
        genreAliasScore "a" (mkTrackText trackA).genre ∧
    popularityScore popularTrack =
      (if (85 : Int) < 95 then SCORING_WEIGHTS.POPULARITY_HIGH else 0) +
      (if (90 : Int) < 95 then SCORING_WEIGHTS.POPULARITY_VERY_HIGH else 0) :=
  ⟨(C6_exact_skips_partial_scoring "a" ["a"] none trackA).1 (by decide),
   (C6_exact_skips_partial_scoring "a" ["a"] none popularTrack).2.2 95 rfl⟩

/-- C7: the scorer captures at most one search year, the first boundary-
delimited 4-digit token starting with 19 or 20; a track whose year equals
it receives the year-match weight, which is contained in the final score
whether or not the track is exact; Scenario B: under query "2024" only
the 2024 track scores (85 + 25), both flags false. -/
theorem C7_year_capture_and_bonus :
    (∀ (sy : Option Int) (t : ITrack) (y : Int), sy = some y → t.year = some y →
      yearScore sy t = SCORING_WEIGHTS.YEAR_MATCH) ∧
    (∀ (q : String) (terms : List String) (sy : Option Int) (t : ITrack),
      yearScore sy t ≤ (scoreTrack q terms sy t).1) ∧
    findYear "2024 2025" = some 2024 ∧
    performEnhancedSearch [trackX2024, trackY2023] "2024" none =
      [⟨trackX2024, SCORING_WEIGHTS.YEAR_MATCH + SCORING_WEIGHTS.PARTIAL_YEAR, false⟩] ∧
    (scoreTrack "2024" ["2024"] (findYear "2024") trackY2023).1 = 0 ∧
    (scoreTrack "2024" ["2024"] (findYear "2024") trackY2023).2 = false := by
  refine ⟨?_, yearScore_le_scoreTrack, by decide, by decide, by decide, by decide⟩
  intro sy t y h1 h2
  subst h1
  simp [yearScore, h2]

/-- C7 witness: the year bonus at the 2024 track. -/
theorem C7_year_capture_and_bonus_witness :
    yearScore (some 2024) trackX2024 = SCORING_WEIGHTS.YEAR_MATCH :=
  C7_year_capture_and_bonus.1 (some 2024) trackX2024 2024 rfl rfl

/-- C8: the genre-alias weight is added exactly once, for the first table
entry whose key occurs in the query and one of whose aliases occurs in
the genre field, and the bonus is contained in the final score whether or
not the track is exact; Scenario C: query "hip hop" and genre "hip-hop"
receive the bonus although the field does not contain "hip hop". -/
theorem C8_genre_alias_bonus :
    (∀ q g : String,
      genreAliasScore q g =
        if ∃ e ∈ GENRE_ALIASES, strIncludes q e.1 = true ∧ ∃ a ∈ e.2, strIncludes g a = true then
          SCORING_WEIGHTS.GENRE_ALIAS_MATCH
        else 0) ∧
    (∀ (q : String) (terms : List String) (sy : Option Int) (t : ITrack),
      genreAliasScore q (mkTrackText t).genre ≤ (scoreTrack q terms sy t).1) ∧
    genreAliasScore "hip hop" "hip-hop" = SCORING_WEIGHTS.GENRE_ALIAS_MATCH ∧
    strIncludes "hip-hop" "hip hop" = false ∧
    performEnhancedSearch [hipHopTrack] "hip hop" none = [⟨hipHopTrack, 145, false⟩] := by
  refine ⟨?_, genreAliasScore_le_scoreTrack, by decide, by decide, by decide⟩
  intro q g
  exact genreAliasScoreAux_eq q g GENRE_ALIASES

/-- C8 witness: the characterization instantiated at Scenario C's query
and genre field. -/
theorem C8_genre_alias_bonus_witness :
    genreAliasScore "hip hop" "hip-hop" =
      if ∃ e ∈ GENRE_ALIASES,
          strIncludes "hip hop" e.1 = true ∧ ∃ a ∈ e.2, strIncludes "hip-hop" a = true then
        SCORING_WEIGHTS.GENRE_ALIAS_MATCH
      else 0 :=
  C8_genre_alias_bonus.1 "hip hop" "hip-hop"

/-- C9: absent optional fields degrade gracefully — each absent text
field behaves as the empty string, an absent year contributes no year
bonus and stringifies to the empty string, an absent popularity
contributes no boost; the function is total, so no input shape makes it
fail. -/
theorem C9_absent_fields_degrade (t : ITrack) :
    (t.name = none → (mkTrackText t).name = "") ∧
    (t.title = none → (mkTrackText t).title = "") ∧
    (t.original_title = none → (mkTrackText t).original_title = "") ∧
    (t.artist = none → (mkTrackText t).artist = "") ∧
    (t.album = none → (mkTrackText t).album = "") ∧
    (t.overview = none → (mkTrackText t).overview = "") ∧
    (t.genre = none → (mkTrackText t).genre = "") ∧
    (t.year = none → (mkTrackText t).year = "" ∧ ∀ sy, yearScore sy t = 0) ∧
    (t.popularity = none → popularityScore t = 0) := by
  refine ⟨?_, ?_, ?_, ?_, ?_, ?_, ?_, ?_, ?_⟩ <;> intro h
  · rw [show (mkTrackText t).name = optLower t.name from rfl, h]; decide
  · rw [show (mkTrackText t).title = optLower t.title from rfl, h]; decide
  · rw [show (mkTrackText t).original_title = optLower t.original_title from rfl, h]; decide
  · rw [show (mkTrackText t).artist = optLower t.artist from rfl, h]; decide
  · rw [show (mkTrackText t).album = optLower t.album from rfl, h]; decide
  · rw [show (mkTrackText t).overview = optLower t.overview from rfl, h]; decide
  · rw [show (mkTrackText t).genre = optLower t.genre from rfl, h]; decide
  · constructor
    · simp [mkTrackText, h]
    · intro sy
      cases sy <;> simp [yearScore, h]
  · simp [popularityScore, h]

/-- C9 witness: the all-absent track. -/
theorem C9_absent_fields_degrade_witness :
    (mkTrackText emptyTrack).name = "" ∧ popularityScore emptyTrack = 0 :=
  ⟨(C9_absent_fields_degrade emptyTrack).1 rfl,
   (C9_absent_fields_degrade emptyTrack).2.2.2.2.2.2.2.2 rfl⟩

/-- C10: a negative limit reaches `slice(0, limit)`, which drops the last
`|limit|` elements: the result is the first `max(0, n - |limit|)`
elements of the untruncated sorted sequence (`Nat` subtraction clamps at
0). -/
theorem C10_negative_limit (tracks : List ITrack) (q : String) (l : Int) (hl : l < 0) :
    performEnhancedSearch tracks q (some l) =
      (performEnhancedSearch tracks q none).take
        ((performEnhancedSearch tracks q none).length - l.natAbs) := by
  unfold performEnhancedSearch
  split
  · simp
  · simp only [applyLimit]
    rw [if_neg (by omega : ¬ l = 0)]
    unfold jsSliceZero
    rw [if_neg (by omega : ¬ (0 : Int) ≤ l)]

/-- C10 witness: two matches, limit -1 keeps the first match only. -/
theorem C10_negative_limit_witness :
    performEnhancedSearch [trackA, trackAB] "a" (some (-1)) =
      (performEnhancedSearch [trackA, trackAB] "a" none).take
        ((performEnhancedSearch [trackA, trackAB] "a" none).length - (-1 : Int).natAbs) :=
  C10_negative_limit [trackA, trackAB] "a" (-1) (by decide)
